import Mathlib

/-!
Shallow embedding of the TypeScript validation library (schema.ts): the
error/result data model, the validator configuration tree built by the
Schema facade, and the recursive validate function.  JavaScript runtime
values are modelled by the inductive JSValue (numbers as exact rationals,
NaN as a separate constructor, Date objects by their millisecond time
value with none for an invalid date).  JavaScript string and number
primitives used by the source (parseInt, parseFloat, split, trim,
whitespace collapsing, the Date constructor with month rollover) are
modelled by executable functions below.
-/

namespace SchemaVal

/-- Error codes of the library, mirroring VALIDATION_ERROR_CODES. -/
inductive ErrCode where
  | REQUIRED
  | INVALID_TYPE
  | MIN_LENGTH
  | MAX_LENGTH
  | MIN_VALUE
  | MAX_VALUE
  | PATTERN_MISMATCH
  | INVALID_DATE
  | INVALID_DATE_FORMAT
  | MIN_DATE
  | MAX_DATE
  | NOT_INTEGER
  | UNION_MISMATCH
  | LITERAL_MISMATCH
  | MISSING_FORMAT
  | INVALID_CURRENCY_FORMAT
  | NEGATIVE_AMOUNT
  | MIN_AMOUNT
  | MAX_AMOUNT
deriving DecidableEq, Repr

/-- A single validation error, mirroring interface ValidationError. -/
structure ValidationError where
  path : String
  message : String
  code : ErrCode
deriving DecidableEq, Repr

/-- JavaScript runtime values, as far as the library observes them.
Numbers are exact rationals with NaN separate; a Date object is carried
by its time value in milliseconds (none models an invalid date, whose
getTime is NaN).  Objects are association lists in property order. -/
inductive JSValue where
  | undefined
  | null
  | bool (b : Bool)
  | num (q : Rat)
  | nan
  | str (s : String)
  | jsdate (t : Option Int)
  | arr (elems : List JSValue)
  | obj (fields : List (String × JSValue))

/-- Result of a validation, mirroring interface ValidationResult.  The
data field of the source is either absent (undefined) or a value; it is
modelled by an Option. -/
structure ValidationResult where
  success : Bool
  data : Option JSValue
  errors : List ValidationError

/-- The state shared by every validator, from the abstract base class:
the optional flag and the custom message override. -/
structure VBase where
  isOptional : Bool
  customMessage : Option String
deriving DecidableEq, Repr

/-- Values accepted by Schema.literal, whose TypeScript signature
restricts the literal to string, number or boolean. -/
inductive LitValue where
  | lstr (v : String)
  | lnum (v : Rat)
  | lbool (v : Bool)
deriving DecidableEq, Repr

/-- Format mode of a DateValidator: format(pattern) stores the pattern
string together with a shape regex derived from it, and iso8601() stores
the sentinel pattern ISO8601 with its own hand-written regex. -/
inductive DateFormat where
  | fmtPat (p : String)
  | fmtIso
deriving DecidableEq, Repr

/-- Currency format descriptor, mirroring interface CurrencyFormat.  The
thousands separator is a single character or absent (the source type
allows exactly the separators comma, dot, space, or the empty string). -/
structure CurrencyFormat where
  symbol : String
  code : String
  placeBefore : Bool
  decimalSep : Char
  thousandsSep : Option Char
  decimalPlaces : Nat
deriving DecidableEq, Repr

/-- The USD preset of CURRENCY_CONFIGS. -/
def USD : CurrencyFormat := ⟨"$", "USD", true, '.', some ',', 2⟩

/-- The GBP preset of CURRENCY_CONFIGS. -/
def GBP : CurrencyFormat := ⟨"£", "GBP", true, '.', some ',', 2⟩

/-- The EUR preset of CURRENCY_CONFIGS. -/
def EUR : CurrencyFormat := ⟨"€", "EUR", true, ',', some '.', 2⟩

/-- The RUB preset of CURRENCY_CONFIGS. -/
def RUB : CurrencyFormat := ⟨"₽", "RUB", false, '.', some ' ', 2⟩

/-- Parsed currency value, mirroring interface CurrencyValue. -/
structure CurrencyValue where
  amount : Rat
  currency : String
  originalString : String
deriving DecidableEq, Repr

/-- Encoding of a CurrencyValue as the plain object literal the source
returns in ValidationResult.data. -/
def CurrencyValue.toJS (cv : CurrencyValue) : JSValue :=
  .obj [("amount", .num cv.amount), ("currency", .str cv.currency),
        ("originalString", .str cv.originalString)]

/-! ## JavaScript string primitives, modelled on character lists -/

/-- Whitespace test modelling the regex class backslash-s on the
characters this library meets. -/
def wsChar (c : Char) : Bool := c.isWhitespace

/-- Remove leading and trailing whitespace, modelling String.trim. -/
def trimChars (cs : List Char) : List Char :=
  ((cs.dropWhile wsChar).reverse.dropWhile wsChar).reverse

/-- Collapse each consecutive run of spaces to one space; second half of
modelling the global replacement of whitespace runs by one space. -/
def dedupSpace : List Char → List Char
  | [] => []
  | c :: rest =>
    let r := dedupSpace rest
    if c = ' ' then
      match r with
      | ' ' :: _ => r
      | _ => c :: r
    else c :: r

/-- Replace every whitespace run by a single space, modelling the
replacement of the regex of one or more whitespace by one space. -/
def collapseWs (cs : List Char) : List Char :=
  dedupSpace (cs.map (fun c => if wsChar c then ' ' else c))

/-- Split on a single-character separator, modelling String.split with
the one-character separators the date parsers use. -/
def jsSplitChar (sep : Char) : List Char → List (List Char)
  | [] => [[]]
  | c :: rest =>
    let r := jsSplitChar sep rest
    if c = sep then [] :: r
    else
      match r with
      | h :: t => (c :: h) :: t
      | [] => [[c]]

/-- Index of the last occurrence of a character, modelling
String.lastIndexOf. -/
def lastIdxOf (ch : Char) (cs : List Char) : Option Nat :=
  match (cs.reverse).findIdx? (· = ch) with
  | some i => some (cs.length - 1 - i)
  | none => none

/-- Numeric value of a list of decimal digit characters. -/
def digitsToNat (cs : List Char) : Nat :=
  cs.foldl (fun a c => a * 10 + (c.toNat - '0'.toNat)) 0

/-- Model of parseInt(s, 10): skip leading whitespace, read an optional
sign and then the longest run of leading decimal digits; none (NaN) when
no digit is found. -/
def jsParseInt (s : String) : Option Int :=
  let cs := s.toList.dropWhile wsChar
  let signed : Int × List Char :=
    match cs with
    | '-' :: rest => (-1, rest)
    | '+' :: rest => (1, rest)
    | _ => (1, cs)
  let digits := signed.2.takeWhile (·.isDigit)
  if digits.isEmpty then none
  else some (signed.1 * (digitsToNat digits : Int))

/-- Exponent part of a float literal: optional sign and digits; an
exponent without digits is not consumed and contributes zero. -/
def jsExpDigits (cs : List Char) : Int :=
  let signed : Int × List Char :=
    match cs with
    | '-' :: rest => (-1, rest)
    | '+' :: rest => (1, rest)
    | _ => (1, cs)
  let digits := signed.2.takeWhile (·.isDigit)
  if digits.isEmpty then 0 else signed.1 * (digitsToNat digits : Int)

/-- Model of parseFloat: skip leading whitespace, read an optional sign,
integer digits, an optional fraction and an optional exponent, taking
the longest valid prefix; none (NaN) when no digit is found.  Non-finite
literals such as Infinity are outside the rational model and map to
none. -/
def jsParseFloat (s : String) : Option Rat :=
  let cs := s.toList.dropWhile wsChar
  let signed : Int × List Char :=
    match cs with
    | '-' :: rest => (-1, rest)
    | '+' :: rest => (1, rest)
    | _ => (1, cs)
  let intDigits := signed.2.takeWhile (·.isDigit)
  let afterInt := signed.2.drop intDigits.length
  let fracDigits : List Char :=
    match afterInt with
    | '.' :: rest => rest.takeWhile (·.isDigit)
    | _ => []
  let afterFrac : List Char :=
    match afterInt with
    | '.' :: rest => rest.drop fracDigits.length
    | l => l
  if intDigits.isEmpty ∧ fracDigits.isEmpty then none
  else
    let expPart : Int :=
      match afterFrac with
      | 'e' :: rest => jsExpDigits rest
      | 'E' :: rest => jsExpDigits rest
      | _ => 0
    let e : Int := expPart - fracDigits.length
    let n : Int := signed.1 * Int.ofNat (digitsToNat (intDigits ++ fracDigits))
    if 0 ≤ e then some (mkRat (n * Int.ofNat (10 ^ e.toNat)) 1)
    else some (mkRat n (10 ^ (-e).toNat))

/-! ## Model of the JavaScript Date (UTC) -/

/-- Milliseconds per day. -/
def msPerDay : Int := 86400000

/-- Bound of the ECMAScript time value range in milliseconds. -/
def maxTimeMs : Nat := 8640000000000000

/-- Days from the epoch of the civil date (proleptic Gregorian); the day
component may lie outside its month and acts as an offset, exactly as in
the Date constructor. -/
def daysFromCivil (y m d : Int) : Int :=
  let y2 := if m ≤ 2 then y - 1 else y
  let era := y2.fdiv 400
  let yoe := y2 - era * 400
  let doy := (153 * (m + (if m > 2 then -3 else 9)) + 2).fdiv 5 + d - 1
  let doe := yoe * 365 + yoe.fdiv 4 - yoe.fdiv 100 + doy
  era * 146097 + doe - 719468

/-- Civil date (year, month, day) of a day number from the epoch. -/
def civilFromDays (z : Int) : Int × Int × Int :=
  let z2 := z + 719468
  let era := z2.fdiv 146097
  let doe := z2 - era * 146097
  let yoe := (doe - doe.fdiv 1460 + doe.fdiv 36524 - doe.fdiv 146096).fdiv 365
  let y := yoe + era * 400
  let doy := doe - (365 * yoe + yoe.fdiv 4 - yoe.fdiv 100)
  let mp := (5 * doy + 2).fdiv 153
  let d := doy - (153 * mp + 2).fdiv 5 + 1
  let m := mp + (if mp < 10 then 3 else -9)
  (y + (if m ≤ 2 then 1 else 0), m, d)

/-- Model of new Date(year, monthIndex, day) at UTC midnight: years 0 to
99 map to 1900 plus the year, the month index rolls over into the year,
the day offsets freely, and a time value outside the ECMAScript range is
an invalid date. -/
def mkDateMs (year monthIdx day : Int) : Option Int :=
  let y0 := if 0 ≤ year ∧ year ≤ 99 then 1900 + year else year
  let y1 := y0 + monthIdx.fdiv 12
  let m1 := monthIdx.fmod 12 + 1
  let ms := daysFromCivil y1 m1 day * msPerDay
  if ms.natAbs ≤ maxTimeMs then some ms else none

/-- Date construction when the components come from parseInt: a NaN
component makes the whole date invalid. -/
def mkDateOpt (year monthIdx day : Option Int) : Option Int :=
  match year, monthIdx, day with
  | some y, some m, some d => mkDateMs y m d
  | _, _, _ => none

/-- Model of new Date(value) for a numeric value: truncate toward zero
and clip to the ECMAScript time range. -/
def numToTime (q : Rat) : Option Int :=
  let t : Int := if q ≥ 0 then q.floor else q.ceil
  if t.natAbs ≤ maxTimeMs then some t else none

/-- Length of a month of the proleptic Gregorian calendar. -/
def daysInMonth (y m : Int) : Int :=
  if m = 2 then (if y.fmod 4 = 0 ∧ (y.fmod 100 ≠ 0 ∨ y.fmod 400 = 0) then 29 else 28)
  else if m = 4 ∨ m = 6 ∨ m = 9 ∨ m = 11 then 30
  else 31

/-- Read exactly n decimal digits from the front of the list. -/
def readDigits (n : Nat) (cs : List Char) : Option (Nat × List Char) :=
  let pre := cs.take n
  if pre.length = n ∧ pre.all (·.isDigit) then some (digitsToNat pre, cs.drop n)
  else none

/-- Millisecond field after the seconds: empty, a final Z, or a dot with
exactly three digits optionally followed by Z. -/
def isoMsZ : List Char → Option Int
  | [] => some 0
  | ['Z'] => some 0
  | '.' :: rest =>
    match readDigits 3 rest with
    | some (mmm, r) =>
      if r.isEmpty ∨ r = ['Z'] then some (mmm : Int) else none
    | none => none
  | _ => none

/-- Optional seconds field with its millisecond tail, in milliseconds. -/
def isoSecPart : List Char → Option Int
  | [] => some 0
  | ['Z'] => some 0
  | ':' :: rest =>
    match readDigits 2 rest with
    | some (ss, r) =>
      if ss ≤ 59 then (isoMsZ r).map (fun mmm => (ss : Int) * 1000 + mmm) else none
    | none => none
  | _ => none

/-- Time-of-day part: empty, or T with hours and minutes and an optional
seconds field, in milliseconds. -/
def isoTimePart : List Char → Option Int
  | [] => some 0
  | 'T' :: rest =>
    match readDigits 2 rest with
    | some (hh, r1) =>
      match r1 with
      | ':' :: r2 =>
        match readDigits 2 r2 with
        | some (mi, r3) =>
          if hh ≤ 23 ∧ mi ≤ 59 then
            (isoSecPart r3).map (fun sm => (hh : Int) * 3600000 + (mi : Int) * 60000 + sm)
          else none
        | none => none
      | _ => none
    | none => none
  | _ => none

/-- Split an ISO date-time string into year, month, day and millisecond
of day: a four-digit year with optional month and day fields, then the
time part. -/
def isoSplit (cs : List Char) : Option (Int × Int × Int × Int) :=
  match readDigits 4 cs with
  | some (y, r1) =>
    match r1 with
    | '-' :: r2 =>
      match readDigits 2 r2 with
      | some (m, r3) =>
        match r3 with
        | '-' :: r4 =>
          match readDigits 2 r4 with
          | some (d, r5) => (isoTimePart r5).map (fun ms => ((y : Int), (m : Int), (d : Int), ms))
          | none => none
        | _ => (isoTimePart r3).map (fun ms => ((y : Int), (m : Int), 1, ms))
      | none => none
    | _ => (isoTimePart r1).map (fun ms => ((y : Int), 1, 1, ms))
  | none => none

/-- Model of generic date-string parsing, new Date(string): the ISO 8601
core of the ECMAScript date-time string grammar, taken at UTC, with
strict range checks on every component.  Extended years, explicit
timezone offsets and the engine-specific fallback formats are outside
the model and parse as an invalid date. -/
def jsDateParse (s : String) : Option Int :=
  match isoSplit s.toList with
  | some (y, m, d, ms) =>
    if 1 ≤ m ∧ m ≤ 12 ∧ 1 ≤ d ∧ d ≤ daysInMonth y m then
      let t := daysFromCivil y m d * msPerDay + ms
      if t.natAbs ≤ maxTimeMs then some t else none
    else none
  | none => none

/-! ## Date format shape checking and parsing -/

/-- Tokens of the shape regex derived from a format pattern: a two-digit
field, a four-digit field, or a literal character. -/
inductive FmtTok where
  | d2
  | d4
  | lit (c : Char)
deriving DecidableEq, Repr

/-- ASCII lowercasing of one character, as toLowerCase acts on the
characters of the format patterns. -/
def charLower (c : Char) : Char :=
  if 'A' ≤ c ∧ c ≤ 'Z' then Char.ofNat (c.toNat + 32) else c

/-- ASCII lowercasing of a character list. -/
def lowerChars (cs : List Char) : List Char := cs.map charLower

/-- Token list of the lowercased pattern, modelling the global
replacements of dd, mm, yyyy and yy by digit classes with every other
character matched literally (the source escapes its separator class, so
those match literally; patterns with other regex metacharacters are
outside the model). -/
def fmtTokens : List Char → List FmtTok
  | 'y' :: 'y' :: 'y' :: 'y' :: rest => .d4 :: fmtTokens rest
  | 'd' :: 'd' :: rest => .d2 :: fmtTokens rest
  | 'm' :: 'm' :: rest => .d2 :: fmtTokens rest
  | 'y' :: 'y' :: rest => .d2 :: fmtTokens rest
  | c :: rest => .lit c :: fmtTokens rest
  | [] => []

/-- Consume a token list from the front of the input, returning what is
left; the token fields are fixed width, so the anchored regex match is
deterministic. -/
def fmtChop : List FmtTok → List Char → Option (List Char)
  | [], cs => some cs
  | .d2 :: ts, a :: b :: cs =>
    if a.isDigit ∧ b.isDigit then fmtChop ts cs else none
  | .d4 :: ts, a :: b :: c :: d :: cs =>
    if a.isDigit ∧ b.isDigit ∧ c.isDigit ∧ d.isDigit then fmtChop ts cs else none
  | .lit ch :: ts, a :: cs => if a = ch then fmtChop ts cs else none
  | _, _ => none

/-- The fixed regex of iso8601(): four-digit date, T, full time, an
optional three-digit millisecond field, an optional Z. -/
def isoRegexTest (cs : List Char) : Bool :=
  match fmtChop [.d4, .lit '-', .d2, .lit '-', .d2, .lit 'T', .d2, .lit ':', .d2, .lit ':', .d2] cs with
  | some rest =>
    match rest with
    | [] => true
    | ['Z'] => true
    | '.' :: a :: b :: c :: r => a.isDigit && b.isDigit && c.isDigit && (r.isEmpty || r == ['Z'])
    | _ => false
  | none => false

/-- The stored format regex test: for format(p) the anchored shape regex
derived from the pattern, for iso8601() its fixed regex. -/
def dateFormatTest : DateFormat → String → Bool
  | .fmtPat p, s => fmtChop (fmtTokens (lowerChars p.toList)) s.toList == some []
  | .fmtIso, s => isoRegexTest s.toList

/-- Part i of a split date string fed to parseInt; a missing part is
undefined and parses to NaN. -/
def partInt (parts : List (List Char)) (i : Nat) : Option Int :=
  match parts.get? i with
  | some cs => jsParseInt (String.mk cs)
  | none => none

/-- Two-digit year widening of the source: years up to 29 gain 2000,
years 30 to 99 gain 1900, anything else is kept. -/
def fixY2 (y : Int) : Int :=
  if y ≤ 29 then y + 2000 else if y ≤ 99 then y + 1900 else y

/-- parseDDMMYYYY of the source: split on the separator, read day, month
(made zero-indexed) and year, and construct the date. -/
def parseDDMMYYYY (s : String) (sep : Char) : Option Int :=
  let parts := jsSplitChar sep s.toList
  mkDateOpt (partInt parts 2) ((partInt parts 1).map (· - 1)) (partInt parts 0)

/-- parseMMDDYYYY of the source. -/
def parseMMDDYYYY (s : String) (sep : Char) : Option Int :=
  let parts := jsSplitChar sep s.toList
  mkDateOpt (partInt parts 2) ((partInt parts 0).map (· - 1)) (partInt parts 1)

/-- parseYYYYMMDD of the source. -/
def parseYYYYMMDD (s : String) (sep : Char) : Option Int :=
  let parts := jsSplitChar sep s.toList
  mkDateOpt (partInt parts 0) ((partInt parts 1).map (· - 1)) (partInt parts 2)

/-- parseDDMMYY of the source, with the two-digit year widening. -/
def parseDDMMYY (s : String) (sep : Char) : Option Int :=
  let parts := jsSplitChar sep s.toList
  mkDateOpt ((partInt parts 2).map fixY2) ((partInt parts 1).map (· - 1)) (partInt parts 0)

/-- parseMMDDYY of the source, with the two-digit year widening. -/
def parseMMDDYY (s : String) (sep : Char) : Option Int :=
  let parts := jsSplitChar sep s.toList
  mkDateOpt ((partInt parts 2).map fixY2) ((partInt parts 0).map (· - 1)) (partInt parts 1)

/-- parseFormattedDate of the source: dispatch on the lowercased stored
pattern to the per-format parser, with generic parsing for iso8601 and
as the default. -/
def parseFormattedDate : DateFormat → String → Option Int
  | .fmtIso, s => jsDateParse s
  | .fmtPat p, s =>
    match String.mk (lowerChars p.toList) with
    | "dd/mm/yyyy" => parseDDMMYYYY s '/'
    | "dd-mm-yyyy" => parseDDMMYYYY s '-'
    | "dd.mm.yyyy" => parseDDMMYYYY s '.'
    | "mm/dd/yyyy" => parseMMDDYYYY s '/'
    | "mm-dd-yyyy" => parseMMDDYYYY s '-'
    | "mm.dd.yyyy" => parseMMDDYYYY s '.'
    | "yyyy/mm/dd" => parseYYYYMMDD s '/'
    | "yyyy-mm-dd" => parseYYYYMMDD s '-'
    | "yyyy.mm.dd" => parseYYYYMMDD s '.'
    | "dd/mm/yy" => parseDDMMYY s '/'
    | "dd-mm-yy" => parseDDMMYY s '-'
    | "mm/dd/yy" => parseMMDDYY s '/'
    | "mm-dd-yy" => parseMMDDYY s '-'
    | "iso8601" => jsDateParse s
    | _ => jsDateParse s

/-- The formatPattern string as stored by the source. -/
def formatPatternName : DateFormat → String
  | .fmtPat p => p
  | .fmtIso => "ISO8601"

/-! ## Number and date rendering in messages -/

/-- Zero-padded decimal rendering. -/
def padNum (width : Nat) (n : Nat) : String :=
  let s := toString n
  String.mk (List.replicate (width - s.length) '0') ++ s

/-- Model of Date.prototype.toISOString at UTC. -/
def toISOStringModel (t : Int) : String :=
  let day := t.fdiv msPerDay
  let msod := (t.fmod msPerDay).toNat
  let c := civilFromDays day
  let yearStr :=
    if 0 ≤ c.1 ∧ c.1 ≤ 9999 then padNum 4 c.1.toNat
    else (if c.1 < 0 then "-" else "+") ++ padNum 6 c.1.natAbs
  yearStr ++ "-" ++ padNum 2 c.2.1.toNat ++ "-" ++ padNum 2 c.2.2.toNat ++ "T" ++
    padNum 2 (msod / 3600000) ++ ":" ++ padNum 2 (msod / 60000 % 60) ++ ":" ++
    padNum 2 (msod / 1000 % 60) ++ "." ++ padNum 3 (msod % 1000) ++ "Z"

/-- Rendering of a number inside a template string: integers render
exactly, a rational with a finite decimal expansion renders as its
shortest decimal; other rationals (not reachable from the decimal
literals of the source) fall back to the fraction form. -/
def jsNumToString (q : Rat) : String :=
  if q.den = 1 then toString q.num
  else
    match (List.range 31).find? (fun k => (10 ^ k : Int) % (q.den : Int) = 0) with
    | some k =>
      let mult : Int := (10 ^ k : Int) / (q.den : Int)
      let scaled : Nat := (q.num * mult).natAbs
      let sign := if q.num < 0 then "-" else ""
      sign ++ toString (scaled / 10 ^ k) ++ "." ++ padNum k (scaled % 10 ^ k)
    | none => toString q

/-! ## Currency parsing -/

/-- parseAmount of the source: strip a leading minus, delete every
occurrence of the thousands separator, rewrite a final decimal comma
followed by exactly one or two digits to a dot, and parseFloat. -/
def parseAmount (numericStr : String) (format : CurrencyFormat) : Option Rat :=
  let cs0 := numericStr.toList
  let isNeg := cs0.head? = some '-'
  let cs1 := if isNeg then cs0.drop 1 else cs0
  let cs2 :=
    match format.thousandsSep with
    | some t => cs1.filter (fun c => c ≠ t)
    | none => cs1
  let cs3 :=
    if format.decimalSep = ',' then
      match lastIdxOf ',' cs2 with
      | some i =>
        let afterComma := cs2.drop (i + 1)
        if (afterComma.length = 1 ∨ afterComma.length = 2) ∧ afterComma.all (·.isDigit) then
          cs2.take i ++ '.' :: afterComma
        else cs2
      | none => cs2
    else cs2
  match jsParseFloat (String.mk cs3) with
  | some a => some (if isNeg then -a else a)
  | none => none

/-- parseCurrency of the source: collapse whitespace, detect and strip
the currency marker demanded by the symbol placement (the glued symbol,
or the code separated by one space), then parse the numeric part.  A
failure carries the message attached to INVALID_CURRENCY_FORMAT. -/
def parseCurrency (format : CurrencyFormat) (input : String) : Except String CurrencyValue :=
  let cleanInput := trimChars (collapseWs input.toList)
  let marker : Except String (Bool × List Char) :=
    if format.placeBefore then
      if format.symbol.toList.isPrefixOf cleanInput then
        .ok (true, trimChars (cleanInput.drop format.symbol.length))
      else if (format.code ++ " ").toList.isPrefixOf cleanInput then
        .ok (false, trimChars (cleanInput.drop (format.code.length + 1)))
      else .error ("Currency must start with " ++ format.symbol ++ " or " ++ format.code)
    else
      if format.symbol.toList.reverse.isPrefixOf cleanInput.reverse then
        .ok (true, trimChars (cleanInput.take (cleanInput.length - format.symbol.length)))
      else if (" " ++ format.code).toList.reverse.isPrefixOf cleanInput.reverse then
        .ok (false, trimChars (cleanInput.take (cleanInput.length - format.code.length - 1)))
      else .error ("Currency must end with " ++ format.symbol ++ " or " ++ format.code)
  match marker with
  | .error e => .error e
  | .ok (hasSymbol, numericPart) =>
    match parseAmount (String.mk numericPart) format with
    | none => .error "Invalid numeric format"
    | some amount =>
      .ok ⟨amount, if hasSymbol then format.symbol else format.code, input⟩

/-! ## The validator configuration tree -/

mutual
/-- Configuration of a validator as built by the Schema facade and its
chainable configuration methods: one constructor per concrete class,
each carrying the shared base state plus the constraint fields of that
class.  A string pattern is modelled by its anchored match predicate. -/
inductive Validator where
  | vstring (base : VBase) (minL maxL : Option Nat) (pat : Option (String → Bool))
  | vnumber (base : VBase) (minV maxV : Option Rat) (isInt : Bool)
  | vboolean (base : VBase)
  | vdate (base : VBase) (minD maxD : Option Int) (fmt : Option DateFormat)
  | vcurrency (base : VBase) (fmt : Option CurrencyFormat) (minA maxA : Option Rat)
      (allowNeg : Bool)
  | varray (base : VBase) (minL maxL : Option Nat) (item : Validator)
  | vobject (base : VBase) (schema : VSchema)
  | vliteral (base : VBase) (value : LitValue)
  | vunion (base : VBase) (alts : VList)

/-- The ordered alternatives of a union validator. -/
inductive VList where
  | nil
  | cons (v : Validator) (rest : VList)

/-- The schema of an object validator: an association list of field name
and child validator in declaration order. -/
inductive VSchema where
  | nil
  | cons (key : String) (v : Validator) (rest : VSchema)
end

/-- The shared base state of a validator. -/
def Validator.base : Validator → VBase
  | .vstring b _ _ _ => b
  | .vnumber b _ _ _ => b
  | .vboolean b => b
  | .vdate b _ _ _ => b
  | .vcurrency b _ _ _ _ => b
  | .varray b _ _ _ => b
  | .vobject b _ => b
  | .vliteral b _ => b
  | .vunion b _ => b

/-- Build the alternatives of a union from a plain list. -/
def VList.ofList : List Validator → VList
  | [] => .nil
  | v :: rest => .cons v (VList.ofList rest)

/-- The alternatives of a union as a plain list. -/
def VList.toList : VList → List Validator
  | .nil => []
  | .cons v rest => v :: VList.toList rest

/-- Build an object schema from a plain association list. -/
def VSchema.ofList : List (String × Validator) → VSchema
  | [] => .nil
  | (k, v) :: rest => .cons k v (VSchema.ofList rest)

/-! ## Shared base behavior -/

/-- Undefined-or-null test of the shared optional handling. -/
def isAbsent : JSValue → Bool
  | .undefined => true
  | .null => true
  | _ => false

/-- createError of the base class: the custom message, when set,
overrides the default message. -/
def createError (custom : Option String) (path msg : String) (code : ErrCode) :
    ValidationError :=
  ⟨path, custom.getD msg, code⟩

/-- handleOptional of the base class: an absent value succeeds with
absent data when the validator is optional and fails with one REQUIRED
error when it is not; a defined value falls through to the class
specific logic. -/
def handleOptional (b : VBase) (v : JSValue) (path : String) : Option ValidationResult :=
  if b.isOptional && isAbsent v then some ⟨true, none, []⟩
  else if !b.isOptional && isAbsent v then
    some ⟨false, none, [createError b.customMessage path "Value is required" .REQUIRED]⟩
  else none

/-- Child path of an object field: dotted, unless the parent path is
empty in which case the bare key. -/
def fieldPath (path key : String) : String :=
  if path = "" then key else path ++ "." ++ key

/-- Child path of an array element: the parent path plus the bracketed
index. -/
def itemPath (path : String) (i : Nat) : String :=
  path ++ "[" ++ toString i ++ "]"

/-- Strict equality of the configured literal against the input: equal
only at equal values of the same runtime type (NaN never equals). -/
def litMatches : LitValue → JSValue → Bool
  | .lstr a, .str b => a = b
  | .lnum a, .num b => a = b
  | .lbool a, .bool b => a = b
  | _, _ => false

/-- The literal embedded back as a runtime value, the data returned on a
match. -/
def LitValue.toJS : LitValue → JSValue
  | .lstr a => .str a
  | .lnum a => .num a
  | .lbool a => .bool a

/-- Rendering of the literal inside the mismatch message. -/
def litToString : LitValue → String
  | .lstr a => a
  | .lnum a => jsNumToString a
  | .lbool a => if a then "true" else "false"

/-- Field list of an input that passes the object type check (typeof
object, not null, not an array): a plain object gives its properties; a
Date instance is also typeof object, with no own data properties.
Everything else is rejected as a non-object. -/
def jsObjFields : JSValue → Option (List (String × JSValue))
  | .obj fs => some fs
  | .jsdate _ => some []
  | _ => none

/-- Property access obj[key]: the bound value, or undefined when the key
is missing. -/
def jsGet (fields : List (String × JSValue)) (key : String) : JSValue :=
  match fields.lookup key with
  | some v => v
  | none => .undefined

/-! ## The validate method -/

mutual
/-- The validate method of every validator class: the shared optional
handling first, then the class specific type check and constraint
evaluation, mirroring the source class by class. -/
def validate : Validator → JSValue → String → ValidationResult
  | .vstring b minL maxL pat, v, path =>
    match handleOptional b v path with
    | some r => r
    | none =>
      match v with
      | .str s =>
        let e1 :=
          match minL with
          | some n =>
            if s.length < n then
              [createError b.customMessage path
                ("String must be at least " ++ toString n ++ " characters") .MIN_LENGTH]
            else []
          | none => []
        let e2 :=
          match maxL with
          | some n =>
            if s.length > n then
              [createError b.customMessage path
                ("String must be at most " ++ toString n ++ " characters") .MAX_LENGTH]
            else []
          | none => []
        let e3 :=
          match pat with
          | some test =>
            if test s then []
            else
              [createError b.customMessage path "String does not match required pattern"
                .PATTERN_MISMATCH]
          | none => []
        let errors := e1 ++ e2 ++ e3
        ⟨errors.isEmpty, if errors.isEmpty then some (.str s) else none, errors⟩
      | _ => ⟨false, none, [createError b.customMessage path "Expected string" .INVALID_TYPE]⟩
  | .vnumber b minV maxV isInt, v, path =>
    match handleOptional b v path with
    | some r => r
    | none =>
      match v with
      | .num q =>
        let e1 :=
          match minV with
          | some m =>
            if q < m then
              [createError b.customMessage path
                ("Number must be at least " ++ jsNumToString m) .MIN_VALUE]
            else []
          | none => []
        let e2 :=
          match maxV with
          | some m =>
            if q > m then
              [createError b.customMessage path
                ("Number must be at most " ++ jsNumToString m) .MAX_VALUE]
            else []
          | none => []
        let e3 :=
          if isInt ∧ q.den ≠ 1 then
            [createError b.customMessage path "Number must be an integer" .NOT_INTEGER]
          else []
        let errors := e1 ++ e2 ++ e3
        ⟨errors.isEmpty, if errors.isEmpty then some (.num q) else none, errors⟩
      | _ => ⟨false, none, [createError b.customMessage path "Expected number" .INVALID_TYPE]⟩
  | .vboolean b, v, path =>
    match handleOptional b v path with
    | some r => r
    | none =>
      match v with
      | .bool x => ⟨true, some (.bool x), []⟩
      | _ => ⟨false, none, [createError b.customMessage path "Expected boolean" .INVALID_TYPE]⟩
  | .vdate b minD maxD fmt, v, path =>
    match handleOptional b v path with
    | some r => r
    | none =>
      let parsed : Except ValidationResult (Option Int) :=
        match v with
        | .jsdate t => .ok t
        | .str s =>
          match fmt with
          | some f =>
            if dateFormatTest f s then .ok (parseFormattedDate f s)
            else
              .error ⟨false, none,
                [createError b.customMessage path
                  ("Date must be in format " ++ formatPatternName f) .INVALID_DATE_FORMAT]⟩
          | none => .ok (jsDateParse s)
        | .num q => .ok (numToTime q)
        | .nan => .ok none
        | _ =>
          .error ⟨false, none,
            [createError b.customMessage path "Expected date" .INVALID_TYPE]⟩
      match parsed with
      | .error r => r
      | .ok none =>
        ⟨false, none, [createError b.customMessage path "Invalid date" .INVALID_DATE]⟩
      | .ok (some t) =>
        let e1 :=
          match minD with
          | some m =>
            if t < m then
              [createError b.customMessage path
                ("Date must be after " ++ toISOStringModel m) .MIN_DATE]
            else []
          | none => []
        let e2 :=
          match maxD with
          | some m =>
            if t > m then
              [createError b.customMessage path
                ("Date must be before " ++ toISOStringModel m) .MAX_DATE]
            else []
          | none => []
        let errors := e1 ++ e2
        ⟨errors.isEmpty, if errors.isEmpty then some (.jsdate (some t)) else none, errors⟩
  | .vcurrency b fmt minA maxA allowNeg, v, path =>
    match handleOptional b v path with
    | some r => r
    | none =>
      match v with
      | .str s =>
        match fmt with
        | none =>
          ⟨false, none,
            [createError b.customMessage path "Currency format not specified" .MISSING_FORMAT]⟩
        | some format =>
          match parseCurrency format (String.mk (trimChars s.toList)) with
          | .error e =>
            ⟨false, none, [createError b.customMessage path e .INVALID_CURRENCY_FORMAT]⟩
          | .ok cv =>
            let e1 :=
              if !allowNeg ∧ cv.amount < 0 then
                [createError b.customMessage path "Currency amount cannot be negative"
                  .NEGATIVE_AMOUNT]
              else []
            let e2 :=
              match minA with
              | some m =>
                if cv.amount < m then
                  [createError b.customMessage path
                    ("Amount must be at least " ++ format.symbol ++ jsNumToString m) .MIN_AMOUNT]
                else []
              | none => []
            let e3 :=
              match maxA with
              | some m =>
                if cv.amount > m then
                  [createError b.customMessage path
                    ("Amount must be at most " ++ format.symbol ++ jsNumToString m) .MAX_AMOUNT]
                else []
              | none => []
            let errors := e1 ++ e2 ++ e3
            ⟨errors.isEmpty, if errors.isEmpty then some cv.toJS else none, errors⟩
      | _ =>
        ⟨false, none,
          [createError b.customMessage path "Expected currency string" .INVALID_TYPE]⟩
  | .varray b minL maxL item, v, path =>
    match handleOptional b v path with
    | some r => r
    | none =>
      match v with
      | .arr xs =>
        let e1 :=
          match minL with
          | some n =>
            if xs.length < n then
              [createError b.customMessage path
                ("Array must have at least " ++ toString n ++ " items") .MIN_LENGTH]
            else []
          | none => []
        let e2 :=
          match maxL with
          | some n =>
            if xs.length > n then
              [createError b.customMessage path
                ("Array must have at most " ++ toString n ++ " items") .MAX_LENGTH]
            else []
          | none => []
        let results := xs.enum.map (fun p => validate item p.2 (itemPath path p.1))
        let itemErrors := (results.map (fun r => if r.success then [] else r.errors)).flatten
        let validatedItems := (results.map (fun r =>
          if r.success then
            match r.data with
            | some d => [d]
            | none => []
          else [])).flatten
        let errors := e1 ++ e2 ++ itemErrors
        ⟨errors.isEmpty, if errors.isEmpty then some (.arr validatedItems) else none, errors⟩
      | _ => ⟨false, none, [createError b.customMessage path "Expected array" .INVALID_TYPE]⟩
  | .vobject b schema, v, path =>
    match handleOptional b v path with
    | some r => r
    | none =>
      match jsObjFields v with
      | some fields =>
        let fr := validateFields schema fields path
        ⟨fr.1.isEmpty, if fr.1.isEmpty then some (.obj fr.2) else none, fr.1⟩
      | none => ⟨false, none, [createError b.customMessage path "Expected object" .INVALID_TYPE]⟩
  | .vliteral b value, v, path =>
    match handleOptional b v path with
    | some r => r
    | none =>
      if litMatches value v then ⟨true, some value.toJS, []⟩
      else
        ⟨false, none,
          [createError b.customMessage path ("Expected literal value: " ++ litToString value)
            .LITERAL_MISMATCH]⟩
  | .vunion b alts, v, path =>
    match handleOptional b v path with
    | some r => r
    | none =>
      match unionFirst alts v path with
      | some r => r
      | none =>
        ⟨false, none,
          [createError b.customMessage path "Value does not match any of the expected types"
            .UNION_MISMATCH]⟩

/-- The field loop of ObjectValidator.validate: validate every schema
key in declaration order against the property of that name (undefined
when missing), accumulating all errors and collecting the defined
outputs in order. -/
def validateFields :
    VSchema → List (String × JSValue) → String → List ValidationError × List (String × JSValue)
  | .nil, _, _ => ([], [])
  | .cons key vd rest, fields, path =>
    let r := validate vd (jsGet fields key) (fieldPath path key)
    let tail := validateFields rest fields path
    if r.success then
      match r.data with
      | some d => (tail.1, (key, d) :: tail.2)
      | none => tail
    else (r.errors ++ tail.1, tail.2)

/-- The alternative loop of the union validator: the verbatim result of
the first alternative that succeeds, in declaration order. -/
def unionFirst : VList → JSValue → String → Option ValidationResult
  | .nil, _, _ => none
  | .cons a rest, v, path =>
    let r := validate a v path
    if r.success then some r else unionFirst rest v path
end

/-! ## partial() and optional() as state passing -/

/-- optional() of the base class: set the optional flag of this very
instance (and return it). -/
def setOptional : Validator → Validator
  | .vstring b minL maxL pat => .vstring ⟨true, b.customMessage⟩ minL maxL pat
  | .vnumber b minV maxV isInt => .vnumber ⟨true, b.customMessage⟩ minV maxV isInt
  | .vboolean b => .vboolean ⟨true, b.customMessage⟩
  | .vdate b minD maxD fmt => .vdate ⟨true, b.customMessage⟩ minD maxD fmt
  | .vcurrency b fmt minA maxA allowNeg => .vcurrency ⟨true, b.customMessage⟩ fmt minA maxA allowNeg
  | .varray b minL maxL item => .varray ⟨true, b.customMessage⟩ minL maxL item
  | .vobject b schema => .vobject ⟨true, b.customMessage⟩ schema
  | .vliteral b value => .vliteral ⟨true, b.customMessage⟩ value
  | .vunion b alts => .vunion ⟨true, b.customMessage⟩ alts

/-- The schema after partial() has called optional() on every child. -/
def VSchema.mapOptional : VSchema → VSchema
  | .nil => .nil
  | .cons k v rest => .cons k (setOptional v) (VSchema.mapOptional rest)

/-- State-passing model of ObjectValidator.partial(): optional() mutates
each child in place and returns that same instance, so after the call
the original object validator holds the updated children and the
returned partial validator holds the very same list.  The first
component is the schema held by the original validator after the call;
the second is the returned partial validator. -/
def mkPartial (schema : VSchema) : VSchema × Validator :=
  (VSchema.mapOptional schema, .vobject ⟨false, none⟩ (VSchema.mapOptional schema))

/-- The anchored match predicate of the email regex set by email(): one
or more characters that are neither whitespace nor an at-sign, an
at-sign, the same class again, a literal dot, and the class once more. -/
def emailTest (s : String) : Bool :=
  match jsSplitChar '@' s.toList with
  | [lpart, dpart] =>
    !lpart.isEmpty && s.toList.all (fun c => !wsChar c) &&
      (List.range dpart.length).any (fun i =>
        dpart.get? i == some '.' && decide (1 ≤ i) && decide (i + 2 ≤ dpart.length))
  | _ => false

/-- The pattern stored by ddmmyyyy(separator). -/
def ddmmyyyy (sep : String) : DateFormat := .fmtPat ("DD" ++ sep ++ "MM" ++ sep ++ "YYYY")

/-! ## Well-formedness of every result -/

/-- Well-formedness of a result with respect to the input it came from:
success exactly when the error list is empty, data only on success, and
on success for a defined input the data is present. -/
def GoodRes (x : JSValue) (r : ValidationResult) : Prop :=
  (r.success = true ↔ r.errors = []) ∧
  (r.data.isSome = true → r.success = true) ∧
  (isAbsent x = false → r.success = true → r.data.isSome = true)

theorem mkRes_good (x d : JSValue) (es : List ValidationError) :
    GoodRes x ⟨es.isEmpty, if es.isEmpty then some d else none, es⟩ := by
  refine ⟨List.isEmpty_iff, ?_, ?_⟩ <;> cases h : es.isEmpty <;> simp [h]

theorem okData_good (x d : JSValue) : GoodRes x ⟨true, some d, []⟩ := by
  refine ⟨by simp, by simp, by simp⟩

theorem fail_good (x : JSValue) (e : ValidationError) :
    GoodRes x ⟨false, none, [e]⟩ := by
  refine ⟨by simp, by simp, by simp⟩

theorem handleOptional_good (b : VBase) (x : JSValue) (p : String) (r : ValidationResult)
    (h : handleOptional b x p = some r) : GoodRes x r := by
  unfold handleOptional at h
  split at h
  · next hc =>
    cases h
    have habs : isAbsent x = true := (Bool.and_eq_true _ _ ▸ hc).2
    exact ⟨by simp, by simp, fun hfalse => by simp [habs] at hfalse⟩
  · split at h
    · next hc =>
      cases h
      have habs : isAbsent x = true := (Bool.and_eq_true _ _ ▸ hc).2
      exact ⟨by simp, by simp, fun hfalse => by simp [habs] at hfalse⟩
    · exact absurd h (by simp)

theorem handleOptional_notAbsent (b : VBase) (x : JSValue) (p : String)
    (h : isAbsent x = false) : handleOptional b x p = none := by
  simp [handleOptional, h]

theorem handleOptional_required (b : VBase) (x : JSValue) (p : String)
    (hOpt : b.isOptional = false) (h : isAbsent x = true) :
    handleOptional b x p =
      some ⟨false, none, [createError b.customMessage p "Value is required" .REQUIRED]⟩ := by
  simp [handleOptional, h, hOpt]

mutual
theorem validate_good : ∀ (v : Validator) (x : JSValue) (p : String), GoodRes x (validate v x p)
  | .vstring b minL maxL pat, x, p => by
    simp only [validate]
    cases hOpt : handleOptional b x p with
    | some r => exact handleOptional_good b x p r hOpt
    | none =>
      cases x <;>
        first
        | exact mkRes_good _ _ _
        | exact fail_good _ _
  | .vnumber b minV maxV isInt, x, p => by
    simp only [validate]
    cases hOpt : handleOptional b x p with
    | some r => exact handleOptional_good b x p r hOpt
    | none =>
      cases x <;>
        first
        | exact mkRes_good _ _ _
        | exact fail_good _ _
  | .vboolean b, x, p => by
    simp only [validate]
    cases hOpt : handleOptional b x p with
    | some r => exact handleOptional_good b x p r hOpt
    | none =>
      cases x <;>
        first
        | exact okData_good _ _
        | exact fail_good _ _
  | .vdate b minD maxD fmt, x, p => by
    cases x with
    | str s =>
      simp only [validate]
      cases hOpt : handleOptional b (JSValue.str s) p with
      | some r => exact handleOptional_good _ _ _ r hOpt
      | none =>
        cases fmt with
        | none =>
          cases hd : jsDateParse s with
          | none => exact fail_good _ _
          | some tv => exact mkRes_good _ _ _
        | some f =>
          cases ht : dateFormatTest f s with
          | true =>
            cases hd : parseFormattedDate f s with
            | none => simp only [ht, hd]; exact fail_good _ _
            | some tv => simp only [ht, hd]; exact mkRes_good _ _ _
          | false =>
            simp only [ht]
            exact fail_good _ _
    | num q =>
      simp only [validate]
      cases hOpt : handleOptional b (JSValue.num q) p with
      | some r => exact handleOptional_good _ _ _ r hOpt
      | none =>
        cases hd : numToTime q with
        | none => exact fail_good _ _
        | some tv => exact mkRes_good _ _ _
    | jsdate t =>
      simp only [validate]
      cases hOpt : handleOptional b (JSValue.jsdate t) p with
      | some r => exact handleOptional_good _ _ _ r hOpt
      | none =>
        cases t with
        | none => exact fail_good _ _
        | some tv => exact mkRes_good _ _ _
    | nan =>
      simp only [validate]
      cases hOpt : handleOptional b JSValue.nan p with
      | some r => exact handleOptional_good _ _ _ r hOpt
      | none => exact fail_good _ _
    | undefined =>
      simp only [validate]
      cases hOpt : handleOptional b JSValue.undefined p with
      | some r => exact handleOptional_good _ _ _ r hOpt
      | none => exact fail_good _ _
    | null =>
      simp only [validate]
      cases hOpt : handleOptional b JSValue.null p with
      | some r => exact handleOptional_good _ _ _ r hOpt
      | none => exact fail_good _ _
    | bool bb =>
      simp only [validate]
      cases hOpt : handleOptional b (JSValue.bool bb) p with
      | some r => exact handleOptional_good _ _ _ r hOpt
      | none => exact fail_good _ _
    | arr xs =>
      simp only [validate]
      cases hOpt : handleOptional b (JSValue.arr xs) p with
      | some r => exact handleOptional_good _ _ _ r hOpt
      | none => exact fail_good _ _
    | obj fs =>
      simp only [validate]
      cases hOpt : handleOptional b (JSValue.obj fs) p with
      | some r => exact handleOptional_good _ _ _ r hOpt
      | none => exact fail_good _ _
  | .vcurrency b fmt minA maxA allowNeg, x, p => by
    cases x with
    | str s =>
      simp only [validate]
      cases hOpt : handleOptional b (JSValue.str s) p with
      | some r => exact handleOptional_good _ _ _ r hOpt
      | none =>
        cases fmt with
        | none => exact fail_good _ _
        | some format =>
          cases hP : parseCurrency format (String.mk (trimChars s.toList)) with
          | error e => simp only [hP]; exact fail_good _ _
          | ok cv => simp only [hP]; exact mkRes_good _ _ _
    | undefined =>
      simp only [validate]
      cases hOpt : handleOptional b JSValue.undefined p with
      | some r => exact handleOptional_good _ _ _ r hOpt
      | none => exact fail_good _ _
    | null =>
      simp only [validate]
      cases hOpt : handleOptional b JSValue.null p with
      | some r => exact handleOptional_good _ _ _ r hOpt
      | none => exact fail_good _ _
    | bool bb =>
      simp only [validate]
      cases hOpt : handleOptional b (JSValue.bool bb) p with
      | some r => exact handleOptional_good _ _ _ r hOpt
      | none => exact fail_good _ _
    | num q =>
      simp only [validate]
      cases hOpt : handleOptional b (JSValue.num q) p with
      | some r => exact handleOptional_good _ _ _ r hOpt
      | none => exact fail_good _ _
    | nan =>
      simp only [validate]
      cases hOpt : handleOptional b JSValue.nan p with
      | some r => exact handleOptional_good _ _ _ r hOpt
      | none => exact fail_good _ _
    | jsdate t =>
      simp only [validate]
      cases hOpt : handleOptional b (JSValue.jsdate t) p with
      | some r => exact handleOptional_good _ _ _ r hOpt
      | none => exact fail_good _ _
    | arr xs =>
      simp only [validate]
      cases hOpt : handleOptional b (JSValue.arr xs) p with
      | some r => exact handleOptional_good _ _ _ r hOpt
      | none => exact fail_good _ _
    | obj fs =>
      simp only [validate]
      cases hOpt : handleOptional b (JSValue.obj fs) p with
      | some r => exact handleOptional_good _ _ _ r hOpt
      | none => exact fail_good _ _
  | .varray b minL maxL item, x, p => by
    simp only [validate]
    cases hOpt : handleOptional b x p with
    | some r => exact handleOptional_good b x p r hOpt
    | none =>
      cases x <;>
        first
        | exact mkRes_good _ _ _
        | exact fail_good _ _
  | .vobject b schema, x, p => by
    simp only [validate]
    cases hOpt : handleOptional b x p with
    | some r => exact handleOptional_good b x p r hOpt
    | none =>
      cases x <;>
        first
        | exact mkRes_good _ _ _
        | exact fail_good _ _
  | .vliteral b value, x, p => by
    simp only [validate]
    cases hOpt : handleOptional b x p with
    | some r => exact handleOptional_good b x p r hOpt
    | none =>
      cases hl : litMatches value x with
      | true => simp only [hl]; exact okData_good _ _
      | false => simp only [hl]; exact fail_good _ _
  | .vunion b alts, x, p => by
    simp only [validate]
    cases hOpt : handleOptional b x p with
    | some r => exact handleOptional_good b x p r hOpt
    | none =>
      cases hU : unionFirst alts x p with
      | some r => exact (unionFirst_good alts x p r hU).2
      | none => exact fail_good _ _

theorem unionFirst_good :
    ∀ (l : VList) (x : JSValue) (p : String) (r : ValidationResult),
      unionFirst l x p = some r → r.success = true ∧ GoodRes x r
  | .nil, x, p, r => by intro h; simp [unionFirst] at h
  | .cons a rest, x, p, r => by
    intro h
    simp only [unionFirst] at h
    by_cases hs : (validate a x p).success = true
    · rw [if_pos hs] at h
      cases h
      exact ⟨hs, validate_good a x p⟩
    · rw [if_neg hs] at h
      exact unionFirst_good rest x p r h
end

/-! ## Further helper lemmas -/

theorem handleOptional_optional (b : VBase) (x : JSValue) (p : String)
    (hb : b.isOptional = true) (hx : isAbsent x = true) :
    handleOptional b x p = some ⟨true, none, []⟩ := by
  simp [handleOptional, hb, hx]

theorem setOptional_absent (v : Validator) (x : JSValue) (p : String)
    (hx : isAbsent x = true) :
    validate (setOptional v) x p = ⟨true, none, []⟩ := by
  cases v <;>
    (simp only [setOptional, validate]
     rw [handleOptional_optional _ x p rfl hx])

theorem validateFields_mapOptional_empty :
    ∀ (schema : VSchema) (p : String),
      validateFields (VSchema.mapOptional schema) [] p = ([], [])
  | .nil, _ => rfl
  | .cons k v rest, p => by
    have hv := setOptional_absent v .undefined (fieldPath p k) rfl
    have ih := validateFields_mapOptional_empty rest p
    simp only [VSchema.mapOptional, validateFields, jsGet, List.lookup, hv, ih]
    exact if_pos trivial

/-! ## Example validators used by concrete claims -/

/-- Schema.string() with no constraints. -/
def requiredString : Validator := .vstring ⟨false, none⟩ none none none

/-- Schema.string().optional(). -/
def optionalString : Validator := .vstring ⟨true, none⟩ none none none

/-- Schema.boolean(). -/
def requiredBoolean : Validator := .vboolean ⟨false, none⟩

/-- Schema.object(\x7b\x7d): an object validator with the empty schema. -/
def objectEmpty : Validator := .vobject ⟨false, none⟩ .nil

/-- Schema.date().ddmmyyyy("/"). -/
def dateDDMMYYYYslash : Validator := .vdate ⟨false, none⟩ none none (some (ddmmyyyy "/"))

/-! ## Claim theorems -/

/-- C1, counterexample: for an optional validator on an absent input the
source returns success with the data field absent, so the half of the
claimed invariant stating that data is present if and only if success
holds is false at this input. -/
theorem C1_counterexample :
    (validate optionalString .undefined "").success = true ∧
    (validate optionalString .undefined "").data.isSome = false :=
  ⟨rfl, rfl⟩

/-- C1 (amended): for every validator built via the Schema facade and
every input, success holds exactly when the error list is empty, and
present data implies success; the biconditional between data presence
and success holds for every defined (neither undefined nor null) input,
while an optional validator on an absent input succeeds with data
absent. -/
theorem C1_result_invariant (v : Validator) (x : JSValue) (p : String) :
    ((validate v x p).success = true ↔ (validate v x p).errors = []) ∧
    ((validate v x p).data.isSome = true → (validate v x p).success = true) ∧
    (isAbsent x = false →
      ((validate v x p).data.isSome = true ↔ (validate v x p).success = true)) := by
  obtain ⟨h1, h2, h3⟩ := validate_good v x p
  exact ⟨h1, h2, fun hx => ⟨h2, h3 hx⟩⟩

theorem C1_result_invariant_witness :
    isAbsent (.str "a") = false ∧
    ((validate requiredString (.str "a") "").data.isSome = true ↔
      (validate requiredString (.str "a") "").success = true) :=
  ⟨rfl, (C1_result_invariant requiredString (.str "a") "").2.2 rfl⟩

/-- C2, counterexample: a non-optional object validator applied to null
fails with a single REQUIRED error produced by the shared optional
handling, not with the INVALID_TYPE error the claim states (the null arm
of the object type check is preempted). -/
theorem C2_counterexample :
    validate objectEmpty .null "" =
      ⟨false, none, [⟨"", "Value is required", .REQUIRED⟩]⟩ ∧
    ErrCode.REQUIRED ≠ ErrCode.INVALID_TYPE :=
  ⟨rfl, by decide⟩

/-- C2 (amended): for every non-optional object validator, an array
input fails with a single INVALID_TYPE error at the given path, while a
null input fails with a single REQUIRED error at the given path, because
the shared optional handling fires before the object type check ever
sees the null. -/
theorem C2_object_type_errors (b : VBase) (schema : VSchema) (p : String)
    (xs : List JSValue) (hb : b.isOptional = false) :
    validate (.vobject b schema) (.arr xs) p =
      ⟨false, none, [⟨p, b.customMessage.getD "Expected object", .INVALID_TYPE⟩]⟩ ∧
    validate (.vobject b schema) .null p =
      ⟨false, none, [⟨p, b.customMessage.getD "Value is required", .REQUIRED⟩]⟩ := by
  constructor
  · simp only [validate]
    rw [handleOptional_notAbsent b (.arr xs) p rfl]
    rfl
  · simp only [validate]
    rw [handleOptional_required b .null p hb rfl]
    rfl

theorem C2_object_type_errors_witness :
    validate (.vobject ⟨false, none⟩ .nil) (.arr []) "items" =
      ⟨false, none, [⟨"items", "Expected object", .INVALID_TYPE⟩]⟩ ∧
    validate (.vobject ⟨false, none⟩ .nil) .null "items" =
      ⟨false, none, [⟨"items", "Value is required", .REQUIRED⟩]⟩ :=
  C2_object_type_errors ⟨false, none⟩ .nil "items" [] rfl

/-- C3, evaluation at the failing input: the shape regex of
ddmmyyyy("/") accepts the string 12/25/2023 (two digits, two digits,
four digits), parseDDMMYYYY reads month index 24, and the Date
constructor rolls it over, so validation succeeds with the date
2025-01-12 instead of failing with INVALID_DATE_FORMAT as the claim and
the test suite of the repository expect. -/
theorem C3_month_overflow_accepted :
    validate dateDDMMYYYYslash (.str "12/25/2023") "" =
      ⟨true, some (.jsdate (some 1736640000000)), []⟩ ∧
    toISOStringModel 1736640000000 = "2025-01-12T00:00:00.000Z" :=
  ⟨rfl, rfl⟩

/-- C4: every non-optional validator of every kind rejects undefined and
null with exactly one REQUIRED error at the given path, whose message is
the required-value default unless a custom message was set. -/
theorem C4_required_rejection (v : Validator) (x : JSValue) (p : String)
    (hOpt : v.base.isOptional = false) (hx : isAbsent x = true) :
    validate v x p =
      ⟨false, none, [⟨p, v.base.customMessage.getD "Value is required", .REQUIRED⟩]⟩ := by
  cases v <;>
    (simp only [Validator.base] at hOpt
     simp only [validate]
     rw [handleOptional_required _ x p hOpt hx]
     rfl)

theorem C4_required_rejection_witness :
    validate requiredBoolean .null "age" =
      ⟨false, none, [⟨"age", "Value is required", .REQUIRED⟩]⟩ ∧
    validate requiredString .undefined "name" =
      ⟨false, none, [⟨"name", "Value is required", .REQUIRED⟩]⟩ :=
  ⟨C4_required_rejection requiredBoolean .null "age" rfl rfl,
   C4_required_rejection requiredString .undefined "name" rfl rfl⟩

/-- C9: validate is total, and every returned result is a well-formed
ValidationResult whose success flag agrees with emptiness of its error
list; all failures are data, never faults. -/
theorem C9_total (v : Validator) (x : JSValue) (p : String) :
    ∃ r : ValidationResult, validate v x p = r ∧ (r.success = true ↔ r.errors = []) :=
  ⟨validate v x p, rfl, (validate_good v x p).1⟩

/-- C10: partial() calls optional() on the very child instances held by
the original object validator, so the returned partial validator holds
the same (now optional) children as the original does after the call,
and the original validator then accepts an input object with every field
missing, with no REQUIRED error. -/
theorem C10_partial_shares_children (b : VBase) (schema : VSchema) (p : String) :
    (mkPartial schema).2 = .vobject ⟨false, none⟩ (mkPartial schema).1 ∧
    validate (.vobject b (mkPartial schema).1) (.obj []) p =
      ⟨true, some (.obj []), []⟩ := by
  constructor
  · rfl
  · simp only [validate]
    rw [handleOptional_notAbsent b (.obj []) p rfl]
    simp only [mkPartial, jsObjFields, validateFields_mapOptional_empty schema p,
      List.isEmpty_nil, if_pos trivial]

/-- Schema.currency().usd(). -/
def usdCurrency : Validator := .vcurrency ⟨false, none⟩ (some USD) none none false

/-- Schema.string().email(): email() stores the email pattern and sets
the default custom message Invalid email format. -/
def emailString : Validator :=
  .vstring ⟨false, some "Invalid email format"⟩ none none (some emailTest)

/-- The object schema with profile.contact.email nested three deep, each
level a required object validator. -/
def nestedProfile : Validator :=
  .vobject ⟨false, none⟩
    (.cons "profile"
      (.vobject ⟨false, none⟩
        (.cons "contact"
          (.vobject ⟨false, none⟩ (.cons "email" emailString .nil)) .nil)) .nil)

/-- The input with a bad email nested at profile.contact.email. -/
def nestedInput : JSValue :=
  .obj [("profile", .obj [("contact", .obj [("email", .str "bad")])])]

/-- Schema.array(Schema.object(schema with an email field)). -/
def arrayOfEmailObjs : Validator :=
  .varray ⟨false, none⟩ none none
    (.vobject ⟨false, none⟩ (.cons "email" emailString .nil))

/-- Array input whose element at index 1 has a bad email. -/
def arrayInput : JSValue :=
  .arr [.obj [("email", .str "ok@x.com")], .obj [("email", .str "bad")]]

/-- C7: the USD currency validator accepts the well-formed string with
thousands separator, returning amount 1234.56 (the rational 123456/100)
with the matched symbol and the original string recorded, and rejects
the same digits without a leading marker with one
INVALID_CURRENCY_FORMAT error naming both accepted markers. -/
theorem C7_usd_currency :
    validate usdCurrency (.str "$1,234.56") "" =
      ⟨true, some (.obj [("amount", .num (mkRat 123456 100)), ("currency", .str "$"),
        ("originalString", .str "$1,234.56")]), []⟩ ∧
    validate usdCurrency (.str "1234.56") "" =
      ⟨false, none,
        [⟨"", "Currency must start with $ or USD", .INVALID_CURRENCY_FORMAT⟩]⟩ :=
  ⟨rfl, rfl⟩

/-- C8: error paths concatenate as validation descends.  At the root the
bare key is used and deeper levels append dot key, so the nested bad
email is reported at profile.contact.email; an array element appends the
bracketed index, so the failing element at index 1 is reported at a path
containing the bracketed 1. -/
theorem C8_path_propagation :
    fieldPath "" "profile" = "profile" ∧
    fieldPath "profile" "contact" = "profile.contact" ∧
    itemPath "" 1 = "[1]" ∧
    validate nestedProfile nestedInput "" =
      ⟨false, none, [⟨"profile.contact.email", "Invalid email format", .PATTERN_MISMATCH⟩]⟩ ∧
    validate arrayOfEmailObjs arrayInput "" =
      ⟨false, none, [⟨"[1].email", "Invalid email format", .PATTERN_MISMATCH⟩]⟩ ∧
    (∃ pre post, "[1].email" = pre ++ "[1]" ++ post) :=
  ⟨rfl, rfl, rfl, rfl, rfl, ⟨"", ".email", rfl⟩⟩

/-- The anchored match predicate of the uppercase-letters-only regex
used by the accumulation example. -/
def upperPat : String → Bool :=
  fun s => !s.isEmpty && s.toList.all (fun c => decide ('A' ≤ c ∧ c ≤ 'Z'))

/-- Schema.string().minLength(5).pattern(uppercase only). -/
def stringMin5Upper : Validator := .vstring ⟨false, none⟩ (some 5) none (some upperPat)

theorem vstring_str_errors (b : VBase) (minL maxL : Option Nat)
    (pat : Option (String → Bool)) (s p : String) :
    (validate (.vstring b minL maxL pat) (.str s) p).errors =
      (match minL with
        | some n =>
          if s.length < n then
            [createError b.customMessage p
              ("String must be at least " ++ toString n ++ " characters") .MIN_LENGTH]
          else []
        | none => []) ++
      (match maxL with
        | some n =>
          if s.length > n then
            [createError b.customMessage p
              ("String must be at most " ++ toString n ++ " characters") .MAX_LENGTH]
          else []
        | none => []) ++
      (match pat with
        | some t =>
          if t s then []
          else
            [createError b.customMessage p "String does not match required pattern"
              .PATTERN_MISMATCH]
        | none => []) := by
  simp only [validate]
  rw [handleOptional_notAbsent b (.str s) p rfl]

/-- C5: the string validator evaluates its three constraints
independently and accumulates every failing one: the returned error list
contains a MIN_LENGTH error exactly when the minimum length constraint
is set and fails, likewise for MAX_LENGTH and PATTERN_MISMATCH, with no
short-circuiting; in particular the min-5 uppercase validator reports
both MIN_LENGTH and PATTERN_MISMATCH on the input ab. -/
theorem C5_string_accumulation :
    (∀ (b : VBase) (minL maxL : Option Nat) (pat : Option (String → Bool)) (s p : String),
      ((∃ e ∈ (validate (.vstring b minL maxL pat) (.str s) p).errors,
          e.code = .MIN_LENGTH) ↔ ∃ n, minL = some n ∧ s.length < n) ∧
      ((∃ e ∈ (validate (.vstring b minL maxL pat) (.str s) p).errors,
          e.code = .MAX_LENGTH) ↔ ∃ n, maxL = some n ∧ s.length > n) ∧
      ((∃ e ∈ (validate (.vstring b minL maxL pat) (.str s) p).errors,
          e.code = .PATTERN_MISMATCH) ↔ ∃ t, pat = some t ∧ t s = false)) ∧
    ((∃ e ∈ (validate stringMin5Upper (.str "ab") "").errors, e.code = .MIN_LENGTH) ∧
      (∃ e ∈ (validate stringMin5Upper (.str "ab") "").errors, e.code = .PATTERN_MISMATCH)) := by
  constructor
  · intro b minL maxL pat s p
    rw [vstring_str_errors b minL maxL pat s p]
    refine ⟨?_, ?_, ?_⟩ <;>
      (cases minL <;> cases maxL <;> cases pat <;>
        simp only [List.mem_append, List.mem_singleton, List.not_mem_nil, createError] <;>
        (try split_ifs) <;>
        simp_all [createError, or_and_right, exists_or, exists_eq_left, exists_eq_left'])
  · exact ⟨by decide, by decide⟩

/-- Schema.literal("active"). -/
def literalActive : Validator := .vliteral ⟨false, none⟩ (.lstr "active")

theorem unionFirst_app_success (x : JSValue) (p : String) :
    ∀ (l₁ : List Validator) (a : Validator) (l₂ : List Validator),
      (∀ w ∈ l₁, (validate w x p).success = false) →
      (validate a x p).success = true →
      unionFirst (VList.ofList (l₁ ++ a :: l₂)) x p = some (validate a x p)
  | [], a, l₂, _, hsucc => by
    simp only [List.nil_append, VList.ofList, unionFirst]
    rw [if_pos hsucc]
  | w :: rest, a, l₂, hfail, hsucc => by
    have hw : (validate w x p).success = false := hfail w (List.mem_cons_self w rest)
    have ih := unionFirst_app_success x p rest a l₂
      (fun u hu => hfail u (List.mem_cons_of_mem w hu)) hsucc
    simp only [List.cons_append, VList.ofList, unionFirst]
    rw [if_neg (by simp [hw])]
    exact ih

theorem unionFirst_all_fail (x : JSValue) (p : String) :
    ∀ (l : List Validator),
      (∀ w ∈ l, (validate w x p).success = false) →
      unionFirst (VList.ofList l) x p = none
  | [], _ => rfl
  | w :: rest, hfail => by
    have hw : (validate w x p).success = false := hfail w (List.mem_cons_self w rest)
    have ih := unionFirst_all_fail x p rest (fun u hu => hfail u (List.mem_cons_of_mem w hu))
    simp only [VList.ofList, unionFirst]
    rw [if_neg (by simp [hw])]
    exact ih

/-- C6: for a defined input, a union returns verbatim the result of the
first alternative that succeeds, and when every alternative fails it
returns exactly one UNION_MISMATCH error at the given path. -/
theorem C6_union_first_match :
    (∀ (b : VBase) (l₁ : List Validator) (a : Validator) (l₂ : List Validator)
        (x : JSValue) (p : String),
      isAbsent x = false →
      (∀ w ∈ l₁, (validate w x p).success = false) →
      (validate a x p).success = true →
      validate (.vunion b (VList.ofList (l₁ ++ a :: l₂))) x p = validate a x p) ∧
    (∀ (b : VBase) (l : List Validator) (x : JSValue) (p : String),
      isAbsent x = false →
      (∀ w ∈ l, (validate w x p).success = false) →
      validate (.vunion b (VList.ofList l)) x p =
        ⟨false, none,
          [⟨p, b.customMessage.getD "Value does not match any of the expected types",
            .UNION_MISMATCH⟩]⟩) := by
  constructor
  · intro b l₁ a l₂ x p hx hfail hsucc
    simp only [validate]
    rw [handleOptional_notAbsent b x p hx, unionFirst_app_success x p l₁ a l₂ hfail hsucc]
  · intro b l x p hx hfail
    simp only [validate]
    rw [handleOptional_notAbsent b x p hx, unionFirst_all_fail x p l hfail]
    rfl

theorem C6_union_first_match_witness :
    validate (.vunion ⟨false, none⟩ (VList.ofList ([] ++ literalActive :: [requiredString])))
        (.str "active") "" = validate literalActive (.str "active") "" ∧
    validate (.vunion ⟨false, none⟩ (VList.ofList [literalActive])) (.bool true) "" =
      ⟨false, none,
        [⟨"", "Value does not match any of the expected types", .UNION_MISMATCH⟩]⟩ :=
  ⟨C6_union_first_match.1 ⟨false, none⟩ [] literalActive [requiredString] (.str "active") ""
      rfl (fun w hw => absurd hw (List.not_mem_nil w)) rfl,
    C6_union_first_match.2 ⟨false, none⟩ [literalActive] (.bool true) "" rfl
      (fun w hw => by rw [List.mem_singleton] at hw; subst hw; rfl)⟩

end SchemaVal
